import Mathlib

set_option maxRecDepth 10000

/-!
Shallow embedding of the arithmetic entry state machine of
src/components/Calculator.tsx (the React presentation layer, theme toggling
and keyboard wiring are out of scope; every handler below is the pure state
transformer extracted from the corresponding useCallback body).

JavaScript numbers are modelled exactly, as rationals in lowest terms plus a
NaN element; binary floating point rounding is abstracted away (the spec
itself treats float artifacts as incidental).  JS strings are Lean strings.
-/

/-- Executable rational numbers: numerator and positive denominator kept in
lowest terms by the smart constructor mkQ.  Mathlib's Rat is not used for the
machine state because its arithmetic does not reduce inside the kernel; the
bridge to ℚ is Q.toRat below. -/
structure Q where
  num : Int
  den : Nat
deriving DecidableEq, Repr

/-- Normalising constructor: divide numerator and denominator by their gcd.
The zero denominator branch is a harmless default; every caller in this file
supplies a nonzero denominator. -/
def mkQ (n : Int) (d : Nat) : Q :=
  if d = 0 then ⟨0, 1⟩
  else
    let g := n.natAbs.gcd d
    ⟨n / (g : Int), d / g⟩

/-- Signed-denominator variant of mkQ, used for division. -/
def mkQint (n d : Int) : Q :=
  if d < 0 then mkQ (-n) (-d).toNat else mkQ n d.toNat

def Q.add (a b : Q) : Q := mkQ (a.num * (b.den : Int) + b.num * (a.den : Int)) (a.den * b.den)

def Q.sub (a b : Q) : Q := mkQ (a.num * (b.den : Int) - b.num * (a.den : Int)) (a.den * b.den)

def Q.mul (a b : Q) : Q := mkQ (a.num * b.num) (a.den * b.den)

def Q.div (a b : Q) : Q := mkQint (a.num * (b.den : Int)) ((a.den : Int) * b.num)

/-- Interpretation of a Q value as a Mathlib rational. -/
def Q.toRat (q : Q) : ℚ := (q.num : ℚ) / (q.den : ℚ)

/-- A JavaScript number: an exact rational or NaN.  The component never
produces Infinity (division by zero is intercepted before dividing), so no
infinite element is needed. -/
inductive JSNum
  | nan
  | num (q : Q)
deriving DecidableEq, Repr

/-- JS addition: NaN is absorbing. -/
def JSNum.add : JSNum → JSNum → JSNum
  | .num a, .num b => .num (a.add b)
  | _, _ => .nan

/-- JS subtraction: NaN is absorbing. -/
def JSNum.sub : JSNum → JSNum → JSNum
  | .num a, .num b => .num (a.sub b)
  | _, _ => .nan

/-- JS multiplication: NaN is absorbing. -/
def JSNum.mul : JSNum → JSNum → JSNum
  | .num a, .num b => .num (a.mul b)
  | _, _ => .nan

/-- JS division: NaN is absorbing.  Callers in this file only divide by
values that failed the `=== 0` test. -/
def JSNum.div : JSNum → JSNum → JSNum
  | .num a, .num b => .num (a.div b)
  | _, _ => .nan

/-- The JS test `v === 0`: false on NaN, and on a rational exactly when the
(lowest terms, nonzero denominator) numerator is zero. -/
def jsEq0 : JSNum → Bool
  | .num q => q.num == 0
  | .nan => false

/-- The JS guard `previousValue || 0` from inputOperation: NaN is falsy and
is replaced by 0; every rational other than 0 is truthy, and 0 itself is
mapped to 0, so on rationals the guard is the identity. -/
def orZero : JSNum → JSNum
  | .nan => .num ⟨0, 1⟩
  | v => v

/-- Numeric value of a list of decimal digit characters, most significant
first (the accumulator loop of a decimal parse). -/
def digitsToNat (cs : List Char) : Nat :=
  cs.foldl (fun acc c => 10 * acc + (c.toNat - '0'.toNat)) 0

/-- Magnitude part of parseFloat: longest prefix of digits, optionally
followed by a point and more digits; NaN if no digit is consumed. -/
def parseMagnitude (cs : List Char) : JSNum :=
  let ip := cs.takeWhile Char.isDigit
  let rest := cs.dropWhile Char.isDigit
  let fp := match rest with
    | '.' :: r => r.takeWhile Char.isDigit
    | _ => []
  if ip.isEmpty && fp.isEmpty then .nan
  else .num (mkQ (digitsToNat ip * 10 ^ fp.length + digitsToNat fp) (10 ^ fp.length))

/-- Model of JS parseFloat on the strings this component can display: an
optional sign followed by digits with at most one decimal point; any
unparsable string (such as the Error token) gives NaN.  Exponents,
whitespace skipping and the Infinity literal are not modelled, as no
reachable display uses them. -/
def parseFloat (t : String) : JSNum :=
  match t.toList with
  | '-' :: cs =>
      match parseMagnitude cs with
      | .num q => .num ⟨-q.num, q.den⟩
      | .nan => .nan
  | '+' :: cs => parseMagnitude cs
  | cs => parseMagnitude cs

/-- Decimal digit characters of a natural number, via fuel recursion so the
kernel can evaluate it; n+1 units of fuel always suffice. -/
def natToDigitsAux : Nat → Nat → List Char
  | 0, _ => []
  | fuel + 1, n =>
      if n < 10 then [Char.ofNat (48 + n)]
      else natToDigitsAux fuel (n / 10) ++ [Char.ofNat (48 + n % 10)]

def natToDigits (n : Nat) : List Char := natToDigitsAux (n + 1) n

def natStr (n : Nat) : String := String.mk (natToDigits n)

/-- Smallest decimal exponent k with den dividing 10^k, if one exists below
the bound 1075 (the largest denominator exponent an IEEE double can carry);
none for denominators with a non-terminating decimal expansion. -/
def decExp (den : Nat) : Option Nat :=
  (List.range 1075).find? (fun k => 10 ^ k % den == 0)

/-- Model of JS number-to-string conversion on exact rationals: integers
print without a point, terminating decimals print with one (no trailing
zeros, since the minimal exponent is used).  A rational whose decimal
expansion does not terminate is printed as a fraction; real JS would print a
rounded float there, an artifact this model abstracts away. -/
def ratToString (q : Q) : String :=
  let sign := if q.num < 0 then "-" else ""
  let a := q.num.natAbs
  if q.den = 1 then sign ++ natStr a
  else
    match decExp q.den with
    | some k =>
        let m := a * (10 ^ k / q.den)
        let ds := natToDigits m
        let padded := List.replicate (k + 1 - ds.length) '0' ++ ds
        sign ++ String.mk (padded.take (padded.length - k)) ++ "." ++
          String.mk (padded.drop (padded.length - k))
    | none => sign ++ natStr a ++ "/" ++ natStr q.den

/-- Model of the JS conversion String(newValue) applied to a calculation
result: NaN prints as the NaN token. -/
def stringify : JSNum → String
  | .nan => "NaN"
  | .num q => ratToString q

/-- The four state variables of the component: display, previousValue,
operation, waitingForNewValue. -/
structure CalcState where
  display : String
  previousValue : Option JSNum
  operation : Option String
  waitingForNewValue : Bool
deriving DecidableEq, Repr

/-- The useState initial values: display 0, nothing pending. -/
def initialState : CalcState := ⟨"0", none, none, false⟩

/-- The state forced by the Error branches of inputOperation and
performCalculation. -/
def errorState : CalcState := ⟨"Error", none, none, true⟩

/-- Result of calculate: a number, or the string sentinel for division by
zero. -/
inductive CalcResult
  | val (v : JSNum)
  | err
deriving DecidableEq, Repr

/-- The arithmetic core, from the source switch statement: dispatch on the
operation string, intercept a zero divisor, and fall through to the second
value on an unknown operator. -/
def calculate (firstValue secondValue : JSNum) (operation : String) : CalcResult :=
  if operation = "+" then .val (firstValue.add secondValue)
  else if operation = "-" then .val (firstValue.sub secondValue)
  else if operation = "*" then .val (firstValue.mul secondValue)
  else if operation = "/" then
    if jsEq0 secondValue then .err
    else .val (firstValue.div secondValue)
  else .val secondValue

/-- Handler inputNumber: overwrite the display when a fresh entry is
awaited, replace a lone 0, otherwise append. -/
def inputNumber (s : CalcState) (num : String) : CalcState :=
  if s.waitingForNewValue then
    { s with display := num, waitingForNewValue := false }
  else
    { s with display := if s.display = "0" then num else s.display ++ num }

/-- Handler inputOperation.  The source guard `else if (operation)` is JS
truthiness, so a pending empty operator string (never produced by the UI)
counts as absent; the final two assignments of the handler run on every
non-error path. -/
def inputOperation (s : CalcState) (nextOperation : String) : CalcState :=
  let inputValue := parseFloat s.display
  match s.previousValue, s.operation with
  | none, _ =>
      { s with previousValue := some inputValue,
               waitingForNewValue := true, operation := some nextOperation }
  | some pv, some op =>
      if op = "" then
        { s with waitingForNewValue := true, operation := some nextOperation }
      else
        match calculate (orZero pv) inputValue op with
        | .err => errorState
        | .val newValue =>
            { display := stringify newValue, previousValue := some newValue,
              operation := some nextOperation, waitingForNewValue := true }
  | some _, none =>
      { s with waitingForNewValue := true, operation := some nextOperation }

/-- Handler performCalculation (the equals action): only acts when a
previous value and a truthy operation string are both present. -/
def performCalculation (s : CalcState) : CalcState :=
  let inputValue := parseFloat s.display
  match s.previousValue, s.operation with
  | some pv, some op =>
      if op = "" then s
      else
        match calculate pv inputValue op with
        | .err => errorState
        | .val newValue => ⟨stringify newValue, none, none, true⟩
  | _, _ => s

/-- Handler clearAll: reset every state variable to its initial value. -/
def clearAll (_ : CalcState) : CalcState := initialState

/-- Handler backspace: display.slice(0, -1) when more than one character is
shown, else reset the display to 0; the other fields are untouched. -/
def backspace (s : CalcState) : CalcState :=
  if s.display.length > 1 then
    { s with display := String.mk s.display.toList.dropLast }
  else
    { s with display := "0" }

/-- The action vocabulary the presentation layer can fire. -/
inductive CalcAction
  | digit (d : String)
  | binOp (o : String)
  | equals
  | clear
  | back
deriving DecidableEq, Repr

/-- One transition of the state machine. -/
def step (s : CalcState) : CalcAction → CalcState
  | .digit d => inputNumber s d
  | .binOp o => inputOperation s o
  | .equals => performCalculation s
  | .clear => clearAll s
  | .back => backspace s

/-- Run an action sequence from the initial state. -/
def run (acts : List CalcAction) : CalcState := acts.foldl step initialState

/-- The digit tokens the UI and keyboard can send. -/
def digitTokens : List String := ["0", "1", "2", "3", "4", "5", "6", "7", "8", "9", "."]

/-- The operator tokens the UI and keyboard can send. -/
def opTokens : List String := ["+", "-", "*", "/"]

/-- An action the presentation layer can actually fire. -/
def CalcAction.Valid : CalcAction → Prop
  | .digit d => d ∈ digitTokens
  | .binOp o => o ∈ opTokens
  | _ => True

instance : DecidablePred CalcAction.Valid := by
  intro a
  cases a <;> simp [CalcAction.Valid] <;> infer_instance

/-- A state the widget can be in: reachable from the initial state by valid
actions. -/
def Reachable (s : CalcState) : Prop :=
  ∃ acts : List CalcAction, (∀ a ∈ acts, a.Valid) ∧ run acts = s

/-- The claimed display format: a nonempty string of decimal digits and
decimal points (read generously: the spec itself admits strings with several
points, such as 1.2.3). -/
def numeralLike (t : String) : Prop :=
  t ≠ "" ∧ ∀ c ∈ t.toList, (c.isDigit = true ∨ c = '.')

instance (t : String) : Decidable (numeralLike t) := by
  unfold numeralLike
  infer_instance

/-- Literal concatenation of a list of strings. -/
def concatAll : List String → String
  | [] => ""
  | d :: ds => d ++ concatAll ds

/-- The display that pure digit entry from the default state produces: the
concatenation of the entered tokens with the maximal leading run of zero
characters removed, or the single character 0 when nothing remains. -/
def strippedDigits (ds : List String) : List Char :=
  (concatAll ds).toList.dropWhile (fun c => c == '0')

def digitsDisplaySpec (ds : List String) : String :=
  if strippedDigits ds = [] then "0" else String.mk (strippedDigits ds)

/-- The display transformer that a sequence of digit actions applies, read
off the non-waiting branch of inputNumber. -/
def entryFold (t : String) (ds : List String) : String :=
  ds.foldl (fun acc d => if acc = "0" then d else acc ++ d) t

theorem str_ne_empty_iff (s : String) : s ≠ "" ↔ s.data ≠ [] := by
  constructor
  · intro h hd
    apply h
    cases s with
    | mk d =>
      simp only at hd
      rw [hd]
  · intro h hs
    rw [hs] at h
    exact h rfl

theorem append_ne_empty_left (s t : String) (h : s ≠ "") : s ++ t ≠ "" := by
  rw [str_ne_empty_iff] at h ⊢
  rw [String.data_append]
  simp only [ne_eq, List.append_eq_nil]
  exact fun hc => h hc.1

theorem append_ne_empty_right (s t : String) (h : t ≠ "") : s ++ t ≠ "" := by
  rw [str_ne_empty_iff] at h ⊢
  rw [String.data_append]
  simp only [ne_eq, List.append_eq_nil]
  exact fun hc => h hc.2

theorem natToDigitsAux_ne_nil (fuel n : Nat) : natToDigitsAux (fuel + 1) n ≠ [] := by
  unfold natToDigitsAux
  split
  · simp
  · simp

theorem natStr_ne_empty (n : Nat) : natStr n ≠ "" := by
  rw [str_ne_empty_iff]
  exact natToDigitsAux_ne_nil n n

theorem ratToString_ne_empty (q : Q) : ratToString q ≠ "" := by
  simp only [ratToString]
  split
  · exact append_ne_empty_right _ _ (natStr_ne_empty _)
  · split
    · exact append_ne_empty_left _ _
        (append_ne_empty_right _ _ (by decide))
    · exact append_ne_empty_right _ _ (natStr_ne_empty _)

theorem stringify_ne_empty (v : JSNum) : stringify v ≠ "" := by
  cases v with
  | nan => decide
  | num q => exact ratToString_ne_empty q

theorem step_display_ne_empty (s : CalcState) (a : CalcAction) (hv : a.Valid)
    (h : s.display ≠ "") : (step s a).display ≠ "" := by
  obtain ⟨disp, pv, op, w⟩ := s
  simp only [CalcState.display] at h
  cases a with
  | digit d =>
    have hd : d ≠ "" := by
      have hall : ∀ x ∈ digitTokens, x ≠ "" := by decide
      exact hall d hv
    simp only [step, inputNumber]
    cases w with
    | true => simpa using hd
    | false =>
      by_cases hd0 : disp = "0"
      · simpa [hd0] using hd
      · simpa [hd0] using append_ne_empty_left _ _ h
  | binOp o =>
    simp only [step, inputOperation]
    cases pv with
    | none => simpa using h
    | some v =>
      cases op with
      | none => simpa using h
      | some o2 =>
        by_cases ho : o2 = ""
        · simpa [ho] using h
        · simp only [if_neg ho]
          cases hc : calculate (orZero v) (parseFloat disp) o2 with
          | err => simp [hc, errorState]
          | val nv => simpa [hc] using stringify_ne_empty nv
  | equals =>
    simp only [step, performCalculation]
    cases pv with
    | none => simpa using h
    | some v =>
      cases op with
      | none => simpa using h
      | some o2 =>
        by_cases ho : o2 = ""
        · simpa [ho] using h
        · simp only [if_neg ho]
          cases hc : calculate v (parseFloat disp) o2 with
          | err => simp [hc, errorState]
          | val nv => simpa [hc] using stringify_ne_empty nv
  | clear => simp [step, clearAll, initialState]
  | back =>
    simp only [step, backspace]
    by_cases hl : (String.mk disp.data : String).length > 1
    · simp only [CalcState.display, if_pos hl]
      rw [str_ne_empty_iff]
      show disp.data.dropLast ≠ []
      intro hc
      have hlen := List.length_dropLast disp.data
      have hl2 : disp.data.length > 1 := hl
      rw [hc] at hlen
      simp only [List.length_nil] at hlen
      omega
    · simp [if_neg hl]

theorem foldl_display_ne_empty (acts : List CalcAction) :
    ∀ s : CalcState, (∀ a ∈ acts, a.Valid) → s.display ≠ "" →
    (List.foldl step s acts).display ≠ "" := by
  induction acts with
  | nil => intro s _ h; simpa using h
  | cons a l ih =>
    intro s hv h
    simp only [List.foldl_cons]
    exact ih (step s a) (fun x hx => hv x (by simp [hx]))
      (step_display_ne_empty s a (hv a (by simp)) h)

theorem string_mk_data (s : String) : String.mk s.data = s := rfl

theorem foldl_digit_actions (ds : List String) :
    ∀ s : CalcState, s.waitingForNewValue = false →
    List.foldl step s (ds.map CalcAction.digit) =
      { s with display := entryFold s.display ds } := by
  induction ds with
  | nil => intro s _; simp [entryFold]
  | cons d ds ih =>
    rintro ⟨disp, pv, op, w⟩ hw
    simp only [CalcState.waitingForNewValue] at hw
    subst hw
    simp only [List.map_cons, List.foldl_cons]
    have hstep : step ⟨disp, pv, op, false⟩ (CalcAction.digit d) =
        ⟨if disp = "0" then d else disp ++ d, pv, op, false⟩ := by
      simp [step, inputNumber]
    rw [hstep, ih _ rfl]
    rfl

theorem entryFold_no_leading_zero (ds : List String) :
    ∀ acc : String, acc.data ≠ [] → acc.data.head? ≠ some '0' →
    entryFold acc ds = acc ++ concatAll ds := by
  induction ds with
  | nil =>
    intro acc _ _
    simp [entryFold, concatAll]
  | cons d ds ih =>
    intro acc hne hhd
    have hacc0 : acc ≠ "0" := by
      intro h
      rw [h] at hhd
      exact hhd rfl
    have hstep : entryFold acc (d :: ds) = entryFold (acc ++ d) ds := by
      simp [entryFold, hacc0]
    rw [hstep]
    obtain ⟨c, cs, hcs⟩ : ∃ c cs, acc.data = c :: cs := by
      cases h : acc.data with
      | nil => exact absurd h hne
      | cons c cs => exact ⟨c, cs, rfl⟩
    have hdata : (acc ++ d).data = c :: (cs ++ d.data) := by
      rw [String.data_append, hcs]
      rfl
    have h1 : (acc ++ d).data ≠ [] := by rw [hdata]; simp
    have h2 : (acc ++ d).data.head? ≠ some '0' := by
      rw [hdata]
      rw [hcs] at hhd
      simpa using hhd
    rw [ih (acc ++ d) h1 h2, concatAll]
    rw [String.append_assoc]

theorem digitsDisplaySpec_cons (d : String) (ds : List String) (c : Char)
    (hc : d.data = [c]) (hne : (c == '0') = false) :
    digitsDisplaySpec (d :: ds) = d ++ concatAll ds := by
  have hdata : (concatAll (d :: ds)).data = c :: (concatAll ds).data := by
    rw [concatAll, String.data_append, hc]
    rfl
  unfold digitsDisplaySpec strippedDigits
  rw [show (concatAll (d :: ds)).toList = (concatAll (d :: ds)).data from rfl]
  rw [hdata, List.dropWhile_cons, hne]
  simp only [Bool.false_eq_true, if_false]
  rw [if_neg (by simp)]
  rw [← hdata, string_mk_data, concatAll]

theorem entryFold_from_zero (ds : List String) (h : ∀ d ∈ ds, d ∈ digitTokens) :
    entryFold "0" ds = digitsDisplaySpec ds := by
  induction ds with
  | nil => decide
  | cons d ds ih =>
    have hd : d ∈ digitTokens := h d (by simp)
    have hds : ∀ x ∈ ds, x ∈ digitTokens := fun x hx => h x (by simp [hx])
    have hstep : entryFold "0" (d :: ds) = entryFold d ds := by
      simp [entryFold]
    rw [hstep]
    by_cases hzero : d = "0"
    · subst hzero
      rw [ih hds]
      unfold digitsDisplaySpec strippedDigits
      have : (concatAll ("0" :: ds)).data = '0' :: (concatAll ds).data := by
        rw [concatAll, String.data_append]
        rfl
      simp only [String.toList, this, List.dropWhile_cons]
      norm_num
    · fin_cases hd
      · exact absurd rfl hzero
      all_goals
        rw [entryFold_no_leading_zero ds _ (by decide) (by decide),
          digitsDisplaySpec_cons _ ds _ rfl (by decide)]

theorem toRat_mkQ (n : Int) (d : Nat) (hd : d ≠ 0) :
    (mkQ n d).toRat = (n : ℚ) / (d : ℚ) := by
  simp only [mkQ, if_neg hd]
  set g := n.natAbs.gcd d with hgdef
  have hg0 : g ≠ 0 := by
    intro h0
    exact hd (Nat.eq_zero_of_gcd_eq_zero_right (hgdef ▸ h0))
  have hgn : (g : Int) ∣ n :=
    Int.dvd_natAbs.mp (Int.natCast_dvd_natCast.mpr (Nat.gcd_dvd_left _ _))
  have hgd : g ∣ d := Nat.gcd_dvd_right _ _
  obtain ⟨k, hk⟩ := hgn
  obtain ⟨m, hm⟩ := hgd
  simp only [Q.toRat]
  rw [hk, hm]
  rw [Int.mul_ediv_cancel_left k (Int.natCast_ne_zero.mpr hg0)]
  rw [Nat.mul_div_cancel_left m (Nat.pos_of_ne_zero hg0)]
  push_cast
  rw [mul_div_mul_left _ _ (by exact_mod_cast hg0 : (g : ℚ) ≠ 0)]

theorem toRat_mkQint (n d : Int) (hd : d ≠ 0) :
    (mkQint n d).toRat = (n : ℚ) / (d : ℚ) := by
  unfold mkQint
  by_cases hneg : d < 0
  · rw [if_pos hneg]
    rw [toRat_mkQ _ _ (by omega : (-d).toNat ≠ 0)]
    have h1 : (((-d).toNat : Nat) : ℚ) = ((-d : Int) : ℚ) := by
      have := Int.toNat_of_nonneg (by omega : (0 : Int) ≤ -d)
      exact_mod_cast congrArg (fun z : Int => (z : ℚ)) this
    rw [h1]
    push_cast
    rw [neg_div_neg_eq]
  · rw [if_neg hneg]
    rw [toRat_mkQ _ _ (by omega : d.toNat ≠ 0)]
    have h1 : ((d.toNat : Nat) : ℚ) = ((d : Int) : ℚ) := by
      have := Int.toNat_of_nonneg (by omega : (0 : Int) ≤ d)
      exact_mod_cast congrArg (fun z : Int => (z : ℚ)) this
    rw [h1]

theorem toRat_add (a b : Q) (ha : a.den ≠ 0) (hb : b.den ≠ 0) :
    (a.add b).toRat = a.toRat + b.toRat := by
  unfold Q.add
  rw [toRat_mkQ _ _ (mul_ne_zero ha hb)]
  unfold Q.toRat
  have ha2 : ((a.den : ℚ)) ≠ 0 := Nat.cast_ne_zero.mpr ha
  have hb2 : ((b.den : ℚ)) ≠ 0 := Nat.cast_ne_zero.mpr hb
  push_cast
  field_simp

theorem toRat_sub (a b : Q) (ha : a.den ≠ 0) (hb : b.den ≠ 0) :
    (a.sub b).toRat = a.toRat - b.toRat := by
  unfold Q.sub
  rw [toRat_mkQ _ _ (mul_ne_zero ha hb)]
  unfold Q.toRat
  have ha2 : ((a.den : ℚ)) ≠ 0 := Nat.cast_ne_zero.mpr ha
  have hb2 : ((b.den : ℚ)) ≠ 0 := Nat.cast_ne_zero.mpr hb
  push_cast
  field_simp
  ring

theorem toRat_mul (a b : Q) (ha : a.den ≠ 0) (hb : b.den ≠ 0) :
    (a.mul b).toRat = a.toRat * b.toRat := by
  unfold Q.mul
  rw [toRat_mkQ _ _ (mul_ne_zero ha hb)]
  unfold Q.toRat
  have ha2 : ((a.den : ℚ)) ≠ 0 := Nat.cast_ne_zero.mpr ha
  have hb2 : ((b.den : ℚ)) ≠ 0 := Nat.cast_ne_zero.mpr hb
  push_cast
  field_simp

theorem toRat_div (a b : Q) (ha : a.den ≠ 0) (hb : b.den ≠ 0) (hb0 : b.num ≠ 0) :
    (a.div b).toRat = a.toRat / b.toRat := by
  unfold Q.div
  rw [toRat_mkQint _ _ (mul_ne_zero (Int.natCast_ne_zero.mpr ha) hb0)]
  unfold Q.toRat
  have ha2 : ((a.den : ℚ)) ≠ 0 := Nat.cast_ne_zero.mpr ha
  have hb2 : ((b.den : ℚ)) ≠ 0 := Nat.cast_ne_zero.mpr hb
  have hb3 : ((b.num : ℚ)) ≠ 0 := Int.cast_ne_zero.mpr hb0
  push_cast
  field_simp

theorem toRat_eq_zero_iff (q : Q) (hq : q.den ≠ 0) : q.toRat = 0 ↔ q.num = 0 := by
  unfold Q.toRat
  rw [div_eq_zero_iff]
  have h2 : ((q.den : ℚ)) ≠ 0 := Nat.cast_ne_zero.mpr hq
  simp [h2]

/-- C1: division by zero is the single error kind.  Whenever the operator or
equals handler is about to apply the pending slash with a displayed value
that passes the JS test `=== 0`, the next state is exactly the Error state
(display Error, pending operand and operator absent, awaitingFreshEntry
true); and the concrete sequence 6, /, 0, = from the default state ends in
that state.  No exception is involved: every handler of the model is a total
function into CalcState. -/
theorem div_by_zero_forces_error :
    (∀ (s : CalcState) (a : JSNum) (o : String),
      s.previousValue = some a → s.operation = some "/" →
      jsEq0 (parseFloat s.display) = true →
      inputOperation s o = errorState ∧ performCalculation s = errorState) ∧
    run [CalcAction.digit "6", CalcAction.binOp "/", CalcAction.digit "0",
      CalcAction.equals] = errorState := by
  constructor
  · rintro ⟨disp, pv, op, w⟩ a o h1 h2 h3
    simp only [CalcState.previousValue] at h1
    simp only [CalcState.operation] at h2
    subst h1
    subst h2
    have hc1 : calculate (orZero a) (parseFloat disp) "/" = .err := by
      simp [calculate, h3]
    have hc2 : calculate a (parseFloat disp) "/" = .err := by
      simp [calculate, h3]
    constructor
    · simp [inputOperation, hc1]
    · simp [performCalculation, hc2]
  · decide

theorem div_by_zero_forces_error_witness :
    inputOperation ⟨"0", some (JSNum.num ⟨6, 1⟩), some "/", true⟩ "+" = errorState ∧
    performCalculation ⟨"0", some (JSNum.num ⟨6, 1⟩), some "/", true⟩ = errorState :=
  div_by_zero_forces_error.1 ⟨"0", some (JSNum.num ⟨6, 1⟩), some "/", true⟩
    (JSNum.num ⟨6, 1⟩) "+" rfl rfl (by decide)

/-- C2: chained binary operations evaluate strictly left to right with no
precedence: 2, +, 3, *, 4, = yields display 20, that is (2+3)*4, and not
14. -/
theorem chained_left_to_right :
    run [CalcAction.digit "2", CalcAction.binOp "+", CalcAction.digit "3",
      CalcAction.binOp "*", CalcAction.digit "4", CalcAction.equals] =
      ⟨"20", none, none, true⟩ ∧ ("20" : String) ≠ "14" := by decide

/-- C3 (counterexample): the claim that only digit and clear move a
reachable display off the Error token is false: after 6, /, 0, = the display
is Error, and one further backspace action yields display Erro, which is no
longer the Error token. -/
theorem error_token_backspace_counterexample :
    (∀ a ∈ [CalcAction.digit "6", CalcAction.binOp "/", CalcAction.digit "0",
        CalcAction.equals, CalcAction.back], a.Valid) ∧
    (run [CalcAction.digit "6", CalcAction.binOp "/", CalcAction.digit "0",
        CalcAction.equals]).display = "Error" ∧
    (run [CalcAction.digit "6", CalcAction.binOp "/", CalcAction.digit "0",
        CalcAction.equals, CalcAction.back]).display = "Erro" ∧
    ("Erro" : String) ≠ "Error" := by decide

/-- C3 (amended): from the Error state as entered by division by zero
(pending operand and operator absent, awaitingFreshEntry set), a digit token
or clear moves the display off the Error token, a single operator press
keeps it, equals is a no-op, and backspace truncates the token to Erro,
also leaving it. -/
theorem error_state_exits :
    (∀ d ∈ digitTokens, (step errorState (CalcAction.digit d)).display ≠ "Error") ∧
    (step errorState CalcAction.clear).display = "0" ∧
    (∀ o : String, (step errorState (CalcAction.binOp o)).display = "Error") ∧
    step errorState CalcAction.equals = errorState ∧
    (step errorState CalcAction.back).display = "Erro" := by
  refine ⟨by decide, by decide, fun o => rfl, by decide, by decide⟩

theorem error_state_exits_witness :
    (step errorState (CalcAction.digit "7")).display ≠ "Error" :=
  error_state_exits.1 "7" (by decide)

/-- C4 (amended): every state reachable from the default state by valid
actions has a nonempty display.  The format half of the original claim is
refuted separately: reachable displays include Erro, NaN and signed
numerals, which are neither digits-and-points numerals nor the Error
token. -/
theorem display_nonempty_invariant (s : CalcState) (h : Reachable s) :
    s.display ≠ "" := by
  obtain ⟨acts, hval, hrun⟩ := h
  rw [← hrun]
  exact foldl_display_ne_empty acts initialState hval (by decide)

theorem display_nonempty_invariant_witness : initialState.display ≠ "" :=
  display_nonempty_invariant initialState ⟨[], by simp, rfl⟩

/-- C4 (counterexample): the valid action sequence 6, /, 0, =, backspace is
reachable from the default state and leaves the display showing Erro, which
is neither a numeral-with-optional-decimal-points string nor the literal
Error token. -/
theorem display_format_counterexample :
    (∀ a ∈ [CalcAction.digit "6", CalcAction.binOp "/", CalcAction.digit "0",
        CalcAction.equals, CalcAction.back], a.Valid) ∧
    (run [CalcAction.digit "6", CalcAction.binOp "/", CalcAction.digit "0",
        CalcAction.equals, CalcAction.back]).display = "Erro" ∧
    ¬ numeralLike "Erro" ∧ ("Erro" : String) ≠ "Error" := by decide

/-- C5: when a pending operand and a pending operator (one of the four
tokens) are present and calculate does not return the error sentinel, the
equals handler sets the display to the stringified result, clears both
pending fields and sets awaitingFreshEntry; when either is absent it leaves
the state unchanged, as in the sequence 5, = from the default state. -/
theorem equals_semantics :
    (∀ (s : CalcState) (a : JSNum) (op : String) (v : JSNum),
      s.previousValue = some a → s.operation = some op → op ∈ opTokens →
      calculate a (parseFloat s.display) op = CalcResult.val v →
      performCalculation s = ⟨stringify v, none, none, true⟩) ∧
    (∀ s : CalcState, s.previousValue = none ∨ s.operation = none →
      performCalculation s = s) ∧
    run [CalcAction.digit "5", CalcAction.equals] = ⟨"5", none, none, false⟩ := by
  refine ⟨?_, ?_, by decide⟩
  · rintro ⟨disp, pv, op0, w⟩ a op v h1 h2 hop hcalc
    simp only [CalcState.previousValue] at h1
    simp only [CalcState.operation] at h2
    subst h1
    subst h2
    have hne : op ≠ "" := by
      rintro rfl
      exact absurd hop (by decide)
    simp only [CalcState.display] at hcalc
    simp [performCalculation, hne, hcalc]
  · rintro ⟨disp, pv, op0, w⟩ (h | h)
    · simp only [CalcState.previousValue] at h
      subst h
      simp [performCalculation]
    · simp only [CalcState.operation] at h
      subst h
      cases pv <;> simp [performCalculation]

theorem equals_semantics_witness :
    performCalculation ⟨"3", some (JSNum.num ⟨2, 1⟩), some "+", true⟩ =
      ⟨"5", none, none, true⟩ ∧
    performCalculation ⟨"7", none, none, false⟩ = ⟨"7", none, none, false⟩ := by
  constructor
  · exact (equals_semantics.1 ⟨"3", some (JSNum.num ⟨2, 1⟩), some "+", true⟩
      (JSNum.num ⟨2, 1⟩) "+" (JSNum.num ⟨5, 1⟩) rfl rfl (by decide) (by decide)).trans
      (by decide)
  · exact equals_semantics.2.1 ⟨"7", none, none, false⟩ (Or.inl rfl)

/-- C6: the clear action yields exactly the default state from every state,
in particular after any action sequence. -/
theorem clear_resets :
    (∀ s : CalcState, clearAll s = initialState) ∧
    (∀ acts : List CalcAction, run (acts ++ [CalcAction.clear]) = initialState) := by
  refine ⟨fun s => rfl, fun acts => ?_⟩
  rw [run, List.foldl_append]
  rfl

/-- C7: backspace drops the last display character when more than one
character is shown and resets the display to 0 when exactly one is shown;
the record update form shows that pendingOperand, pendingOperator and
awaitingFreshEntry are untouched in both cases. -/
theorem backspace_semantics (s : CalcState) :
    (1 < s.display.length →
      backspace s = { s with display := String.mk s.display.toList.dropLast }) ∧
    (s.display.length = 1 → backspace s = { s with display := "0" }) := by
  constructor
  · intro h
    rw [backspace, if_pos h]
  · intro h
    rw [backspace, if_neg (by omega : ¬ s.display.length > 1)]

theorem backspace_semantics_witness :
    backspace ⟨"12", none, none, false⟩ = ⟨"1", none, none, false⟩ ∧
    backspace ⟨"5", some JSNum.nan, some "+", true⟩ =
      ⟨"0", some JSNum.nan, some "+", true⟩ := by
  constructor
  · exact ((backspace_semantics ⟨"12", none, none, false⟩).1 (by decide)).trans (by decide)
  · exact ((backspace_semantics ⟨"5", some JSNum.nan, some "+", true⟩).2 (by decide)).trans
      (by decide)

/-- C8 (counterexample): the claim that the display equals the literal
concatenation of the entered digit tokens fails for the sequence 0, 5: the
code shows 5 while the concatenation (with the default 0 replaced by the
first token) is 05. -/
theorem digit_concat_counterexample :
    (run [CalcAction.digit "0", CalcAction.digit "5"]).display = "5" ∧
    concatAll ["0", "5"] = "05" ∧ ("5" : String) ≠ "05" := by decide

/-- C8 (amended): for every sequence of digit tokens entered from the
default state, the display equals the literal concatenation of the tokens
with the maximal leading run of zero characters removed, or 0 if nothing
remains (each leading 0 is replaced by the next token, not only the default
one). -/
theorem digit_entry_display (ds : List String) (h : ∀ d ∈ ds, d ∈ digitTokens) :
    (run (ds.map CalcAction.digit)).display = digitsDisplaySpec ds := by
  rw [show run (ds.map CalcAction.digit) =
      List.foldl step initialState (ds.map CalcAction.digit) from rfl]
  rw [foldl_digit_actions ds initialState rfl]
  exact entryFold_from_zero ds h

theorem digit_entry_display_witness :
    (run (["0", "5"].map CalcAction.digit)).display = digitsDisplaySpec ["0", "5"] :=
  digit_entry_display ["0", "5"] (by decide)

/-- C9: the arithmetic core computes exact rational addition, subtraction
and multiplication, returns the error sentinel on division exactly when the
divisor is zero and the exact quotient otherwise, and returns the second
operand unchanged on any operator token outside the four-element set. -/
theorem calculate_semantics (a b : Q) (ha : a.den ≠ 0) (hb : b.den ≠ 0) :
    (∃ c, calculate (JSNum.num a) (JSNum.num b) "+" = .val (.num c) ∧
        c.toRat = a.toRat + b.toRat) ∧
    (∃ c, calculate (JSNum.num a) (JSNum.num b) "-" = .val (.num c) ∧
        c.toRat = a.toRat - b.toRat) ∧
    (∃ c, calculate (JSNum.num a) (JSNum.num b) "*" = .val (.num c) ∧
        c.toRat = a.toRat * b.toRat) ∧
    (b.toRat = 0 → calculate (JSNum.num a) (JSNum.num b) "/" = .err) ∧
    (b.toRat ≠ 0 → ∃ c, calculate (JSNum.num a) (JSNum.num b) "/" = .val (.num c) ∧
        c.toRat = a.toRat / b.toRat) ∧
    (∀ op : String, op ∉ opTokens →
      calculate (JSNum.num a) (JSNum.num b) op = .val (JSNum.num b)) := by
  refine ⟨⟨a.add b, ?_, toRat_add a b ha hb⟩, ⟨a.sub b, ?_, toRat_sub a b ha hb⟩,
    ⟨a.mul b, ?_, toRat_mul a b ha hb⟩, ?_, ?_, ?_⟩
  · simp [calculate, JSNum.add]
  · simp [calculate, JSNum.sub]
  · simp [calculate, JSNum.mul]
  · intro h0
    have hz : b.num = 0 := (toRat_eq_zero_iff b hb).mp h0
    simp [calculate, jsEq0, hz]
  · intro h0
    have hb0 : b.num ≠ 0 := fun hc => h0 ((toRat_eq_zero_iff b hb).mpr hc)
    refine ⟨a.div b, ?_, toRat_div a b ha hb hb0⟩
    simp [calculate, jsEq0, hb0, JSNum.div]
  · intro op hop
    have h1 : op ≠ "+" := fun hc => hop (by simp [opTokens, hc])
    have h2 : op ≠ "-" := fun hc => hop (by simp [opTokens, hc])
    have h3 : op ≠ "*" := fun hc => hop (by simp [opTokens, hc])
    have h4 : op ≠ "/" := fun hc => hop (by simp [opTokens, hc])
    simp [calculate, h1, h2, h3, h4]

theorem calculate_semantics_witness :
    (∃ c, calculate (JSNum.num ⟨6, 1⟩) (JSNum.num ⟨4, 1⟩) "+" = .val (.num c) ∧
        c.toRat = Q.toRat ⟨6, 1⟩ + Q.toRat ⟨4, 1⟩) ∧
    calculate (JSNum.num ⟨6, 1⟩) (JSNum.num ⟨0, 1⟩) "/" = .err ∧
    (∃ c, calculate (JSNum.num ⟨6, 1⟩) (JSNum.num ⟨4, 1⟩) "/" = .val (.num c) ∧
        c.toRat = Q.toRat ⟨6, 1⟩ / Q.toRat ⟨4, 1⟩) ∧
    calculate (JSNum.num ⟨6, 1⟩) (JSNum.num ⟨4, 1⟩) "%" = .val (JSNum.num ⟨4, 1⟩) := by
  refine ⟨(calculate_semantics ⟨6, 1⟩ ⟨4, 1⟩ (by decide) (by decide)).1,
    (calculate_semantics ⟨6, 1⟩ ⟨0, 1⟩ (by decide) (by decide)).2.2.2.1 ?_,
    (calculate_semantics ⟨6, 1⟩ ⟨4, 1⟩ (by decide) (by decide)).2.2.2.2.1 ?_,
    (calculate_semantics ⟨6, 1⟩ ⟨4, 1⟩ (by decide) (by decide)).2.2.2.2.2 "%" (by decide)⟩
  · norm_num [Q.toRat]
  · norm_num [Q.toRat]

/-- C10: an operator action taken on the freshly entered Error state
installs NaN (the parse of the Error token) as the pending operand; in a
later chained operator computation the guard `previousValue || 0` coerces
that NaN to 0, so the chain proceeds with 0 as the left operand instead of
staying in or re-entering the Error state: 6, /, 0, =, +, 5, - ends with
display 5 and pending operand 5. -/
theorem nan_operand_coerced_to_zero :
    run [CalcAction.digit "6", CalcAction.binOp "/", CalcAction.digit "0",
      CalcAction.equals] = errorState ∧
    inputOperation errorState "+" = ⟨"Error", some JSNum.nan, some "+", true⟩ ∧
    orZero JSNum.nan = JSNum.num ⟨0, 1⟩ ∧
    calculate (orZero JSNum.nan) (JSNum.num ⟨5, 1⟩) "+" =
      CalcResult.val (JSNum.num ⟨5, 1⟩) ∧
    run [CalcAction.digit "6", CalcAction.binOp "/", CalcAction.digit "0",
      CalcAction.equals, CalcAction.binOp "+", CalcAction.digit "5",
      CalcAction.binOp "-"] = ⟨"5", some (JSNum.num ⟨5, 1⟩), some "-", true⟩ := by decide
